import Mathlib

/-!
Verification of the pigsheadbbq repository.

Part A embeds the client-side and Apps Script menu code
(`site/pigsheadbbq.com/scripts/main.js`, `scripts/google_apps_script_menu_sync.js`)
as executable Lean functions over `List Char` strings.

Part B models the authentication gateway (`server/app.py`).  That file is
documented in `README.md` but its source is not part of this tree, so each
gateway definition is modelled from the specification text and marked as such
in its doc comment.
-/

namespace Phbq

/-! ### JavaScript strings and trimming

JS strings are embedded as `List Char`.  `String.prototype.trim` strips
whitespace (space, tab, line terminators, NBSP, BOM and similar) from both
ends of the string. -/

/-- Whitespace as recognised by `String.prototype.trim` (the code points that
matter for this code base; full Unicode space separators behave the same
way). -/
def isJsWs (c : Char) : Bool :=
  c == ' ' || c == '\t' || c == '\n' || c == '\r' || c == '\x0b' ||
  c == '\x0c' || c == '\u00a0' || c == '\ufeff' || c == '\u2028' || c == '\u2029'

/-- Drop elements satisfying `p` from the right end of a list. -/
def rdropW (p : α → Bool) (l : List α) : List α :=
  (l.reverse.dropWhile p).reverse

/-- Trim elements satisfying `p` from both ends of a list. -/
def trimW (p : α → Bool) (l : List α) : List α :=
  rdropW p (l.dropWhile p)

/-- Embedding of `String.prototype.trim` on `List Char`. -/
def trimChars : List Char → List Char :=
  trimW isJsWs

/-! ### `parseCsvLine` (site/pigsheadbbq.com/scripts/main.js, lines 33-59)

The JS scanner walks the line once keeping `inQuotes`, the field built so far
(`current`) and the fields already produced (`values`).  A `"` while in quotes
followed by another `"` appends one literal `"` and skips both characters;
otherwise a `"` toggles `inQuotes`.  A `,` outside quotes pushes
`current.trim()` and resets `current`; every other character is appended to
`current`.  At the end `current.trim()` is pushed. -/

def csvGo : List Char → Bool → List Char → List (List Char) → List (List Char)
  | [], _, current, values => values ++ [trimChars current]
  | '"' :: '"' :: rest2, true, current, values =>
    csvGo rest2 true (current ++ ['"']) values
  | '"' :: rest, inQuotes, current, values => csvGo rest (!inQuotes) current values
  | ',' :: rest, false, current, values =>
    csvGo rest false [] (values ++ [trimChars current])
  | c :: rest, inQuotes, current, values => csvGo rest inQuotes (current ++ [c]) values

/-- Embedding of `parseCsvLine`. -/
def parseCsvLine (line : List Char) : List (List Char) :=
  csvGo line false [] []

/-- The number of comma characters of the input occurring outside
double-quoted regions, where quoted regions are delimited exactly as the
scanner delimits them (a doubled quote inside a region is an escaped literal
and does not close the region). -/
def commasOutsideQuotes : List Char → Bool → Nat
  | [], _ => 0
  | '"' :: '"' :: rest2, true => commasOutsideQuotes rest2 true
  | '"' :: rest, inQuotes => commasOutsideQuotes rest (!inQuotes)
  | ',' :: rest, false => 1 + commasOutsideQuotes rest false
  | _ :: rest, inQuotes => commasOutsideQuotes rest inQuotes

/-! ### `readTabAsGroups` (scripts/google_apps_script_menu_sync.js, lines 275-331)

A spreadsheet is modelled as its observable content: an association list from
tab name to the rectangular array of display values
(`getDataRange().getDisplayValues()`).  `SpreadsheetApp.openById` is the
identity on this model, so the function takes the opened spreadsheet
directly.  JS object keys of `groupedMap` enumerate in first-insertion order
for string keys, which the association list preserves.  A missing cell
(`rowValues[i]` out of range) is modelled as the empty string; Apps Script
display values are rectangular so the case does not arise on real data. -/

structure SheetGroup where
  category : List Char
  items : List (List Char)
deriving Repr, DecidableEq

structure Spreadsheet where
  tabs : List (List Char × List (List (List Char)))
deriving Repr

/-- Look up an association list by key (first match). -/
def alistGet {β : Type} [DecidableEq κ] : List (κ × β) → κ → Option β
  | [], _ => none
  | (k, v) :: rest, key => if k = key then some v else alistGet rest key

/-- `getSheetByName`, on the spreadsheet model. -/
def getSheetByName (ss : Spreadsheet) (tabName : List Char) :
    Option (List (List (List Char))) :=
  alistGet ss.tabs tabName

/-- `headers`: each header cell after `String(h).trim().toLowerCase()`. -/
def headerKey (cell : List Char) : List Char :=
  (trimChars cell).map Char.toLower

/-- `Array.prototype.indexOf` returning an `Option` instead of `-1`. -/
def idxOfJ : List (List Char) → List Char → Option Nat
  | [], _ => none
  | a :: rest, key => if a = key then some 0 else (idxOfJ rest key).map (· + 1)

/-- `rawPrice.replace(/^\$/, '')`: remove one leading dollar sign. -/
def dropLeadingDollar : List Char → List Char
  | '$' :: rest => rest
  | cs => cs

/-- The `lineText` built for one row: the item name, then
` — displayPrice` when the price is nonempty, then ` · description` when the
description is nonempty. -/
def mkLineText (itemName displayPrice description : List Char) : List Char :=
  (itemName ++ (if displayPrice.isEmpty then [] else (' ' :: '—' :: ' ' :: displayPrice)))
    ++ (if description.isEmpty then [] else (' ' :: '·' :: ' ' :: description))

/-- `groupedMap[categoryName].push(lineText)`, creating the key at the end on
first insertion (JS first-insertion key order). -/
def pushAssoc {β : Type} [DecidableEq κ] :
    List (κ × List β) → κ → β → List (κ × List β)
  | [], key, v => [(key, [v])]
  | (k, vs) :: rest, key, v =>
    if k = key then (k, vs ++ [v]) :: rest else (k, vs) :: pushAssoc rest key v

/-- The body of the `data.slice(1).forEach` callback: fold one row into the
grouped map, skipping rows whose trimmed item cell is empty. -/
def readTabRowStep (categoryIndex itemIndex descriptionIndex priceIndex : Option Nat)
    (m : List (List Char × List (List Char))) (rowValues : List (List Char)) :
    List (List Char × List (List Char)) :=
  let itemName := match itemIndex with
    | some i => trimChars (rowValues.getD i [])
    | none => []
  if itemName.isEmpty then m
  else
    let categoryRaw := match categoryIndex with
      | some i => trimChars (rowValues.getD i [])
      | none => ("Menu Items").data
    let categoryName := if categoryRaw.isEmpty then ("Menu Items").data else categoryRaw
    let description := match descriptionIndex with
      | some i => trimChars (rowValues.getD i [])
      | none => []
    let rawPrice := match priceIndex with
      | some i => trimChars (rowValues.getD i [])
      | none => []
    let displayPrice := if rawPrice.isEmpty then [] else '$' :: dropLeadingDollar rawPrice
    pushAssoc m categoryName (mkLineText itemName displayPrice description)

/-- Embedding of `readTabAsGroups`. -/
def readTabAsGroups (ss : Spreadsheet) (tabName : List Char) : List SheetGroup :=
  match getSheetByName ss tabName with
  | none => []
  | some data =>
    if data.length < 2 then []
    else
      let headers := (data.headD []).map headerKey
      let categoryIndex := idxOfJ headers (("category").data)
      let itemIndex := idxOfJ headers (("item").data)
      let descriptionIndex := idxOfJ headers (("description").data)
      let priceIndex := idxOfJ headers (("price").data)
      let grouped := (data.drop 1).foldl
        (readTabRowStep categoryIndex itemIndex descriptionIndex priceIndex) []
      grouped.map (fun p => { category := p.1, items := p.2 })

/-- A menu line that begins with a non-empty, already-trimmed item name. -/
def startsWithTrimmedName (line : List Char) : Prop :=
  ∃ name rest, line = name ++ rest ∧ name ≠ [] ∧ trimChars name = name

/-- Every line stored in the grouped map begins with a non-empty trimmed
item name. -/
def groupsLinesOk (m : List (List Char × List (List Char))) : Prop :=
  ∀ e ∈ m, ∀ line ∈ e.2, startsWithTrimmedName line

/-! ### `hydrateMenuFromGoogleSheet` (site/pigsheadbbq.com/scripts/main.js, lines 28-146)

The DOM and network are modelled by their observable inputs and outputs:
* `menuTemplate` is the `data-menu-sheet` URL of the `#menu-template` element,
  or `none` when the element is missing;
* a `fetch` of the sheet either throws (`FetchOutcome.failure`, which the
  `try/catch` swallows) or returns a response with an `ok` flag and a body;
* the returned value is `some cards` when the function replaces the
  children of `#menu-template` with the cards built from the CSV, and `none`
  when it returns early or throws, leaving the pre-existing fallback children
  unchanged.  (Rendering details inside a card — the 6-item cap and the
  separator text nodes — do not affect whether replacement happens.) -/

/-- Outcome of `fetch(sheetUrl)` followed by `response.text()`. -/
inductive FetchOutcome where
  | failure
  | response (ok : Bool) (body : List Char)
deriving Repr, DecidableEq

/-- One `{ item, description, price }` record pushed into the grouped map. -/
structure MenuEntry where
  item : List Char
  description : List Char
  price : List Char
deriving Repr, DecidableEq

/-- `.` of the published-sheet regex: any character except a line
terminator. -/
def regexDotChar (c : Char) : Bool :=
  !(c == '\n' || c == '\r' || c == '\u2028' || c == '\u2029')

/-- Consume `pat` from the front of `cs` case-insensitively (the regex has
the `i` flag); return the remainder on success. -/
def eatCI : List Char → List Char → Option (List Char)
  | [], rest => some rest
  | _ :: _, [] => none
  | p :: ps, c :: cs => if p.toLower = c.toLower then eatCI ps cs else none

/-- `(?:&.*)?$`: the text after `/pub?output=csv` is empty, or `&` followed
by non-line-terminator characters up to the end of the string. -/
def pubTail : List Char → Bool
  | [] => true
  | '&' :: rest => rest.all regexDotChar
  | _ => false

/-- Does `/pub?output=csv` (case-insensitively) start here, with a valid
tail after it? -/
def pubClose (cs : List Char) : Bool :=
  match eatCI (("/pub?output=csv").data) cs with
  | some rest => pubTail rest
  | none => false

/-- `.+\/pub\?output=csv(?:&.*)?$`: at least one non-line-terminator
character, then the closing literal and tail, trying every split. -/
def findPubClose : List Char → Bool
  | [] => false
  | c :: cs => regexDotChar c && (pubClose cs || findPubClose cs)

/-- Embedding of `isPublishedSheetUrl`:
`/^https:\/\/docs\.google\.com\/spreadsheets\/d\/e\/.+\/pub\?output=csv(?:&.*)?$/i.test(url)`. -/
def isPublishedSheetUrl (url : List Char) : Bool :=
  match eatCI (("https://docs.google.com/spreadsheets/d/e/").data) url with
  | some rest => findPubClose rest
  | none => false

/-- `csvText.split(/\r?\n/)`: split on `\r\n` or bare `\n` (a lone `\r`
does not split). -/
def splitLinesGo : List Char → List Char → List (List Char)
  | [], current => [current.reverse]
  | '\r' :: '\n' :: rest, current => current.reverse :: splitLinesGo rest []
  | '\n' :: rest, current => current.reverse :: splitLinesGo rest []
  | c :: rest, current => splitLinesGo rest (c :: current)

def splitLines (csvText : List Char) : List (List Char) :=
  splitLinesGo csvText []

/-- `lines = csvText.split(/\r?\n/).filter(Boolean)` then
`rows = lines.map(parseCsvLine)`. -/
def csvRows (csvText : List Char) : List (List (List Char)) :=
  (((splitLines csvText).filter (fun l => !l.isEmpty)).map parseCsvLine)

/-- `header.findIndex((value) => value.toLowerCase() === key)`. -/
def findHeaderIx (header : List (List Char)) (key : List Char) : Option Nat :=
  header.findIdx? (fun v => v.map Char.toLower == key)

/-- The `items.forEach` grouping step: `row[categoryIx] || 'Menu'` is the
key; every row pushes one entry. -/
def hydrateRowStep (categoryIx itemIx : Nat) (descriptionIx priceIx : Option Nat)
    (m : List (List Char × List MenuEntry)) (row : List (List Char)) :
    List (List Char × List MenuEntry) :=
  let categoryRaw := row.getD categoryIx []
  let category := if categoryRaw.isEmpty then ("Menu").data else categoryRaw
  pushAssoc m category
    { item := row.getD itemIx []
      description := match descriptionIx with
        | some i => row.getD i []
        | none => []
      price := match priceIx with
        | some i => row.getD i []
        | none => [] }

/-- Embedding of `hydrateMenuFromGoogleSheet`.  `some cards` means the
fallback children of `#menu-template` are replaced by the cards; `none`
means they are left unchanged. -/
def hydrateMenuFromGoogleSheet (menuTemplate : Option (List Char))
    (fetchResult : FetchOutcome) : Option (List (List Char × List MenuEntry)) :=
  match menuTemplate with
  | none => none
  | some sheetUrl =>
    if isPublishedSheetUrl sheetUrl then
      match fetchResult with
      | .failure => none
      | .response ok body =>
        if ok then
          match csvRows body with
          | [] => none
          | header :: items =>
            if items.isEmpty then none
            else
              match findHeaderIx header (("category").data),
                    findHeaderIx header (("item").data) with
              | some categoryIx, some itemIx =>
                let grouped := items.foldl
                  (hydrateRowStep categoryIx itemIx
                    (findHeaderIx header (("description").data))
                    (findHeaderIx header (("price").data))) []
                let cards := grouped.take 8
                if cards.isEmpty then none else some cards
              | _, _ => none
        else none
    else none

/-! ### Part B — the authentication gateway

`server/app.py` is documented in `README.md` ("Authenticated server") but its
source is not part of this tree.  Every definition below is modelled from the
specification (sections 3, 4, 6 and 7 of the design document): configuration,
CredentialVerifier, BruteForceGuard, CSRFTokenManager, SessionStore and the
RequestGate handlers.  Time is a `Nat` of seconds; session identifiers are
drawn from a fresh counter, preserving the uniqueness that the specified
cryptographically random identifiers give. -/

/-- Modelled from the spec: the immutable startup configuration
(administrative identity name, Argon2id password hash, session-signing
secret, cookie-secure flag, lockout threshold/window/duration, session idle
and absolute timeouts). -/
structure Config where
  adminUsername : String
  adminPasswordHash : String
  sessionSecret : String
  cookieSecure : Bool
  lockoutThreshold : Nat
  lockoutWindow : Nat
  lockoutDuration : Nat
  idleTimeout : Nat
  absoluteTimeout : Nat
deriving Repr, DecidableEq

/-- Modelled from the spec: the memory-hard hash of a password.  The model
keeps verification abstract but checkable: a stored hash verifies a
password exactly when it is the hash of that password. -/
def argon2Hash (password : String) : String :=
  ("$argon2id$") ++ password

/-- Modelled from the spec: the hash algorithm's own verification routine. -/
def argon2Verify (storedHash password : String) : Bool :=
  storedHash == argon2Hash password

/-- Modelled from the spec: the fixed decoy hash used for the dummy
verification on unknown-identity attempts (a timing measure; it has no
effect on the returned value). -/
def decoyHash : String :=
  argon2Hash ("decoy-password-never-matches")

/-- Modelled from the spec: `CredentialVerifier.verify(identity, password)`.
Exact identity match, then hash verification; on identity mismatch a dummy
verification runs against the decoy hash and the result is failure. -/
def verify (cfg : Config) (identity password : String) : Bool :=
  if identity == cfg.adminUsername then
    argon2Verify cfg.adminPasswordHash password
  else
    let dummy := argon2Verify decoyHash password
    false && dummy

/-- Modelled from the spec: `LoginAttemptRecord` — failure count, first
failure of the current window, and the nullable lockout-until timestamp. -/
structure AttemptRecord where
  failureCount : Nat
  windowStart : Nat
  lockedUntil : Option Nat
deriving Repr, DecidableEq

/-- Modelled from the spec: the server-side `Session` record. -/
structure Session where
  identity : String
  createdAt : Nat
  lastActivity : Nat
  csrfSecret : String
deriving Repr, DecidableEq

/-- The gateway's shared mutable state: the session store, the brute-force
records, and the counter from which fresh session ids are drawn. -/
structure GatewayState where
  sessions : List (Nat × Session)
  attempts : List (String × AttemptRecord)
  nextSessionId : Nat
deriving Repr, DecidableEq

/-- Update an association list at a key (replace the first binding, append
when absent). -/
def alistSet {β : Type} [DecidableEq κ] : List (κ × β) → κ → β → List (κ × β)
  | [], key, v => [(key, v)]
  | (k, w) :: rest, key, v =>
    if k = key then (key, v) :: rest else (k, w) :: alistSet rest key v

/-- Remove every binding of a key from an association list. -/
def alistRemove {β : Type} [DecidableEq κ] (l : List (κ × β)) (key : κ) :
    List (κ × β) :=
  l.filter (fun e => e.1 ≠ key)

/-- Modelled from the spec: `BruteForceGuard.isLocked(identifier)` — lazily
compare the current time to the stored lockout timestamp. -/
def isLocked (attempts : List (String × AttemptRecord)) (now : Nat)
    (identifier : String) : Bool :=
  match alistGet attempts identifier with
  | some r =>
    match r.lockedUntil with
    | some t => decide (now < t)
    | none => false
  | none => false

/-- Modelled from the spec: `BruteForceGuard.recordFailure(identifier)` —
increment within the window (or start a new window record), and set the
lockout timestamp once the count reaches the threshold. -/
def recordFailure (cfg : Config) (attempts : List (String × AttemptRecord))
    (now : Nat) (identifier : String) : List (String × AttemptRecord) :=
  let r := match alistGet attempts identifier with
    | some r =>
      if now < r.windowStart + cfg.lockoutWindow then
        { r with failureCount := r.failureCount + 1 }
      else
        { failureCount := 1, windowStart := now, lockedUntil := none }
    | none => { failureCount := 1, windowStart := now, lockedUntil := none }
  let r2 := if cfg.lockoutThreshold ≤ r.failureCount then
      { r with lockedUntil := some (now + cfg.lockoutDuration) }
    else r
  alistSet attempts identifier r2

/-- Modelled from the spec: `BruteForceGuard.recordSuccess(identifier)` — a
success clears the identifier's record entirely. -/
def recordSuccess (attempts : List (String × AttemptRecord))
    (identifier : String) : List (String × AttemptRecord) :=
  alistRemove attempts identifier

/-- Modelled from the spec: `CSRFTokenManager.issue(session)` — a one-way
keyed transformation of the session's CSRF secret. -/
def issueToken (csrfSecret : String) : String :=
  ("csrf,keyed:") ++ csrfSecret

/-- Modelled from the spec: `CSRFTokenManager.validate(session, token)` — a
missing secret (never issued) or missing token always fails validation. -/
def validateToken (csrfSecret : Option String) (token : Option String) : Bool :=
  match csrfSecret, token with
  | some s, some t => t == issueToken s
  | _, _ => false

/-- Modelled from the spec: `SessionStore` session-expiry test — idle
timeout exceeded (time since last activity) or absolute timeout exceeded
(time since creation). -/
def sessionExpired (cfg : Config) (now : Nat) (s : Session) : Bool :=
  decide (s.lastActivity + cfg.idleTimeout < now) ||
  decide (s.createdAt + cfg.absoluteTimeout < now)

/-- Modelled from the spec: `SessionStore.get(sessionId)` — an expired
session is reported absent and deleted as a side effect. -/
def SessionStore.get (cfg : Config) (st : GatewayState) (now : Nat)
    (sid : Nat) : Option Session × GatewayState :=
  match alistGet st.sessions sid with
  | none => (none, st)
  | some s =>
    if sessionExpired cfg now s then
      (none, { st with sessions := alistRemove st.sessions sid })
    else (some s, st)

/-- Modelled from the spec: `SessionStore.create(identity)` — a fresh
unguessable id (modelled by the counter) with creation and last-activity
timestamps set to now and a per-session CSRF secret. -/
def SessionStore.create (cfg : Config) (st : GatewayState) (identity : String)
    (now : Nat) : Nat × GatewayState :=
  let sid := st.nextSessionId
  (sid,
    { st with
      sessions := st.sessions ++
        [(sid, { identity := identity, createdAt := now, lastActivity := now,
                 csrfSecret := cfg.sessionSecret ++ toString sid })]
      nextSessionId := sid + 1 })

/-- Modelled from the spec: `SessionStore.touch(sessionId)`. -/
def SessionStore.touch (st : GatewayState) (sid : Nat) (now : Nat) :
    GatewayState :=
  match alistGet st.sessions sid with
  | none => st
  | some s =>
    { st with sessions := alistSet st.sessions sid { s with lastActivity := now } }

/-- Modelled from the spec: `SessionStore.destroy(sessionId)`. -/
def SessionStore.destroy (st : GatewayState) (sid : Nat) : GatewayState :=
  { st with sessions := alistRemove st.sessions sid }

/-- Modelled from the spec: the session cookie as the gate sees it — absent,
malformed, or carrying an opaque session id (the cookie value is only ever
the id). -/
inductive Cookie where
  | absent
  | malformed
  | value (sid : Nat)
deriving Repr, DecidableEq

/-- Modelled from the spec: `CookieManager.readSessionId(request)` — a
malformed cookie is treated identically to an absent one. -/
def readSessionId : Cookie → Option Nat
  | .value sid => some sid
  | .absent => none
  | .malformed => none

/-- HTTP responses of the gate, with the full body text of a rejection so
that message identity is observable. -/
inductive Response where
  | loginForm (csrfToken : String)
  | redirect (location : String)
  | resource (path : String)
  | reject (message : String)
deriving Repr, DecidableEq

/-- The one generic invalid-credentials message (identical wording whether
the identity or the password was wrong). -/
def invalidCredentialsMessage : String :=
  "Invalid username or password."

def csrfRejectMessage : String :=
  "Invalid or missing CSRF token."

def lockedOutMessage : String :=
  "Too many failed attempts. Try again later."

/-- The public paths: only `/login` and `/logout` are publicly
accessible. -/
def isPublicPath (path : String) : Bool :=
  path == ("/login") || path == ("/logout")

/-- Modelled from the spec: `POST /login`.  Order of checks: lockout first
(no CredentialVerifier call), then CSRF (recording nothing), then
credential verification (recording a failure on mismatch), then success
(clear the record, create a session, redirect to the landing path).
`csrfSecret` is the CSRF secret previously issued to this client's session,
`none` when never issued. -/
def postLogin (cfg : Config) (st : GatewayState) (now : Nat)
    (identifier identity password : String)
    (csrfSecret csrfToken : Option String) : Response × GatewayState :=
  if isLocked st.attempts now identifier then
    (.reject lockedOutMessage, st)
  else if validateToken csrfSecret csrfToken then
    if verify cfg identity password then
      let st2 := { st with attempts := recordSuccess st.attempts identifier }
      let (_, st3) := SessionStore.create cfg st2 identity now
      (.redirect ("/"), st3)
    else
      (.reject invalidCredentialsMessage,
        { st with attempts := recordFailure cfg st.attempts now identifier })
  else
    (.reject csrfRejectMessage, st)

/-- Modelled from the spec: the RequestGate branch for a protected path
(any path that is not public): read the session id from the cookie,
validate it through `SessionStore.get`, and either forward to the static
resource layer (touching the session) or redirect to `/login`. -/
def handleProtected (cfg : Config) (st : GatewayState) (now : Nat)
    (cookie : Cookie) (path : String) : Response × GatewayState :=
  match readSessionId cookie with
  | none => (.redirect ("/login"), st)
  | some sid =>
    match SessionStore.get cfg st now sid with
    | (none, st2) => (.redirect ("/login"), st2)
    | (some _, st2) => (.resource path, SessionStore.touch st2 sid now)

/-- Modelled from the spec: `POST /logout`.  An absent or stale session is
handled by redirect (SessionInvalid is not an error page); a live session
requires a valid CSRF token, destroys the session and clears the cookie,
then redirects to `/login`. -/
def postLogout (cfg : Config) (st : GatewayState) (now : Nat)
    (cookie : Cookie) (csrfToken : Option String) : Response × GatewayState :=
  match readSessionId cookie with
  | none => (.redirect ("/login"), st)
  | some sid =>
    match SessionStore.get cfg st now sid with
    | (none, st2) => (.redirect ("/login"), st2)
    | (some s, st2) =>
      if validateToken (some s.csrfSecret) csrfToken then
        (.redirect ("/login"), SessionStore.destroy st2 sid)
      else (.reject csrfRejectMessage, st2)

/-- Modelled from the spec: startup configuration errors. -/
inductive ConfigError where
  | missingAdminUsername
  | missingPasswordHash
  | missingSessionSecret
  | malformedPasswordHash
deriving Repr, DecidableEq

/-- Environment lookup (first binding). -/
def lookupEnv (env : List (String × String)) (key : String) : Option String :=
  alistGet env key

/-- Modelled from the spec: an Argon2id hash string is well formed when it
carries the algorithm marker the README documents
(`$argon2id$...`). -/
def wellFormedHash (h : String) : Bool :=
  ("$argon2id$").isPrefixOf h

/-- Modelled from the spec: read the environment-supplied configuration once
at startup.  `ADMIN_USERNAME`, `ADMIN_PASSWORD_HASH` and `SESSION_SECRET`
are required and the hash must be well formed; `SESSION_COOKIE_SECURE`
defaults to `true`.  Lockout and timeout values take the documented
defaults. -/
def loadConfig (env : List (String × String)) : Except ConfigError Config :=
  match lookupEnv env ("ADMIN_USERNAME") with
  | none => .error .missingAdminUsername
  | some u =>
    match lookupEnv env ("ADMIN_PASSWORD_HASH") with
    | none => .error .missingPasswordHash
    | some h =>
      match lookupEnv env ("SESSION_SECRET") with
      | none => .error .missingSessionSecret
      | some sec =>
        if wellFormedHash h then
          .ok { adminUsername := u, adminPasswordHash := h,
                sessionSecret := sec,
                cookieSecure := lookupEnv env ("SESSION_COOKIE_SECURE") != some ("false"),
                lockoutThreshold := 5, lockoutWindow := 900,
                lockoutDuration := 900, idleTimeout := 1800,
                absoluteTimeout := 43200 }
        else .error .malformedPasswordHash

/-- A started process: its configuration and the bound listener. -/
structure RunningServer where
  config : Config
  listening : Bool
deriving Repr, DecidableEq

/-- Modelled from the spec: process startup — fail fast (non-zero exit, no
listener bound) unless the configuration loads. -/
def startServer (env : List (String × String)) : Except ConfigError RunningServer :=
  match loadConfig env with
  | .error e => .error e
  | .ok cfg => .ok { config := cfg, listening := true }

/-- A concrete configuration used to exercise the gateway theorems. -/
def demoConfig : Config :=
  { adminUsername := "admin", adminPasswordHash := argon2Hash ("Troglives1!"),
    sessionSecret := "s3cret", cookieSecure := true, lockoutThreshold := 5,
    lockoutWindow := 900, lockoutDuration := 900, idleTimeout := 1800,
    absoluteTimeout := 43200 }

/-- A state in which identifier `10.0.0.1` has reached the threshold and is
locked out until time 900. -/
def demoLockedState : GatewayState :=
  { sessions := [],
    attempts := [("10.0.0.1",
      { failureCount := 5, windowStart := 0, lockedUntil := some 900 })],
    nextSessionId := 1 }

/-- A state with no sessions and no attempt records. -/
def demoFreeState : GatewayState :=
  { sessions := [], attempts := [], nextSessionId := 1 }

/-- A live session created at time 0. -/
def demoSession : Session :=
  { identity := "admin", createdAt := 0, lastActivity := 0,
    csrfSecret := "cs1" }

/-- A state holding `demoSession` under session id 1. -/
def demoSessionState : GatewayState :=
  { sessions := [(1, demoSession)], attempts := [], nextSessionId := 2 }

/-! ### Lemmas and claim theorems -/

theorem dropWhile_dropWhile (p : α → Bool) (l : List α) :
    (l.dropWhile p).dropWhile p = l.dropWhile p := by
  induction l with
  | nil => rfl
  | cons a t ih =>
    cases h : p a with
    | true => simpa [List.dropWhile_cons, h] using ih
    | false => simp [List.dropWhile_cons, h]

theorem dropWhile_head?_false (p : α → Bool) (l : List α) (x : α)
    (h : (l.dropWhile p).head? = some x) : p x = false := by
  induction l with
  | nil => simp [List.dropWhile] at h
  | cons a t ih =>
    cases hp : p a with
    | true =>
      rw [List.dropWhile_cons_of_pos hp] at h
      exact ih h
    | false =>
      rw [List.dropWhile_cons_of_neg (by simp [hp])] at h
      simp only [List.head?_cons, Option.some.injEq] at h
      subst h
      exact hp

theorem dropWhile_eq_self_of_head?_false (p : α → Bool) (l : List α)
    (h : ∀ x, l.head? = some x → p x = false) : l.dropWhile p = l := by
  cases l with
  | nil => rfl
  | cons a t =>
    have hx := h a rfl
    simp [List.dropWhile_cons, hx]

theorem dropWhile_eq_append (p : α → Bool) (l : List α) :
    ∃ t, l = t ++ l.dropWhile p := by
  induction l with
  | nil => exact ⟨[], rfl⟩
  | cons a t ih =>
    cases hp : p a with
    | true =>
      obtain ⟨u, hu⟩ := ih
      exact ⟨a :: u, by simp [List.dropWhile_cons, hp]; exact hu⟩
    | false => exact ⟨[], by simp [List.dropWhile_cons, hp]⟩

theorem rdropW_rdropW (p : α → Bool) (l : List α) :
    rdropW p (rdropW p l) = rdropW p l := by
  unfold rdropW
  rw [List.reverse_reverse, dropWhile_dropWhile]

/-- `rdropW p l` is a prefix of `l`. -/
theorem rdropW_prefix (p : α → Bool) (l : List α) :
    ∃ u, l = rdropW p l ++ u := by
  obtain ⟨t, ht⟩ := dropWhile_eq_append p l.reverse
  refine ⟨t.reverse, ?_⟩
  have := congrArg List.reverse ht
  simpa [rdropW] using this

theorem trimW_idem (p : α → Bool) (l : List α) :
    trimW p (trimW p l) = trimW p l := by
  unfold trimW
  have hdrop : (rdropW p (l.dropWhile p)).dropWhile p = rdropW p (l.dropWhile p) := by
    apply dropWhile_eq_self_of_head?_false
    intro x hx
    obtain ⟨u, hu⟩ := rdropW_prefix p (l.dropWhile p)
    cases hr : rdropW p (l.dropWhile p) with
    | nil => rw [hr] at hx; simp at hx
    | cons a t =>
      rw [hr] at hx
      simp only [List.head?_cons, Option.some.injEq] at hx
      subst hx
      apply dropWhile_head?_false p l
      rw [hu, hr]
      simp
  rw [hdrop, rdropW_rdropW]

theorem trimChars_idem (cs : List Char) :
    trimChars (trimChars cs) = trimChars cs :=
  trimW_idem isJsWs cs

theorem csvGo_length (cs : List Char) (inQuotes : Bool) (current : List Char)
    (values : List (List Char)) :
    (csvGo cs inQuotes current values).length =
      values.length + 1 + commasOutsideQuotes cs inQuotes := by
  induction cs, inQuotes, current, values using csvGo.induct <;>
    (simp_all [csvGo, commasOutsideQuotes]; try omega)

theorem csvGo_fields_trimmed (cs : List Char) (inQuotes : Bool) (current : List Char)
    (values : List (List Char)) :
    (∀ f ∈ values, trimChars f = f) →
    ∀ f ∈ csvGo cs inQuotes current values, trimChars f = f := by
  induction cs, inQuotes, current, values using csvGo.induct with
  | case1 inQ cur vals =>
    intro hv f hf
    rw [csvGo] at hf
    rcases List.mem_append.mp hf with h | h
    · exact hv f h
    · rw [List.mem_singleton.mp h]
      exact trimChars_idem cur
  | case2 rest2 cur vals ih =>
    intro hv
    rw [csvGo]
    exact ih hv
  | case3 rest inQ cur vals h1 ih =>
    intro hv
    rw [csvGo]
    exacts [ih hv, h1]
  | case4 rest cur vals ih =>
    intro hv
    rw [csvGo]
    refine ih ?_
    intro f hf
    rcases List.mem_append.mp hf with h | h
    · exact hv f h
    · rw [List.mem_singleton.mp h]
      exact trimChars_idem cur
  | case5 c rest inQ cur vals h1 h2 h3 ih =>
    intro hv
    rw [csvGo]
    exacts [ih hv, h2, h1, h3]

theorem mkLineText_startsWithTrimmedName (itemName displayPrice description : List Char)
    (hne : itemName ≠ []) (ht : trimChars itemName = itemName) :
    startsWithTrimmedName (mkLineText itemName displayPrice description) := by
  refine ⟨itemName,
    (if displayPrice.isEmpty then [] else (' ' :: '—' :: ' ' :: displayPrice))
      ++ (if description.isEmpty then [] else (' ' :: '·' :: ' ' :: description)),
    ?_, hne, ht⟩
  simp [mkLineText]

theorem pushAssoc_linesOk (m : List (List Char × List (List Char))) (k v : List Char)
    (hv : startsWithTrimmedName v) :
    groupsLinesOk m → groupsLinesOk (pushAssoc m k v) := by
  induction m with
  | nil =>
    intro _ e he line hl
    simp only [pushAssoc, List.mem_singleton] at he
    subst he
    simp only [List.mem_singleton] at hl
    subst hl
    exact hv
  | cons a rest ih =>
    obtain ⟨k2, vs⟩ := a
    intro hm e he line hl
    rw [pushAssoc] at he
    by_cases hk : k2 = k
    · rw [if_pos hk] at he
      rcases List.mem_cons.mp he with rfl | hin
      · simp only at hl
        rcases List.mem_append.mp hl with h | h
        · exact hm (k2, vs) (List.mem_cons_self _ _) line h
        · rw [List.mem_singleton.mp h]
          exact hv
      · exact hm e (List.mem_cons_of_mem _ hin) line hl
    · rw [if_neg hk] at he
      rcases List.mem_cons.mp he with rfl | hin
      · exact hm (k2, vs) (List.mem_cons_self _ _) line hl
      · exact ih (fun e2 he2 => hm e2 (List.mem_cons_of_mem _ he2)) e hin line hl

theorem rowStep_linesOk (ci ii di pric : Option Nat)
    (m : List (List Char × List (List Char))) (row : List (List Char))
    (hm : groupsLinesOk m) :
    groupsLinesOk (readTabRowStep ci ii di pric m row) := by
  unfold readTabRowStep
  cases ii with
  | none => simpa using hm
  | some i =>
    dsimp only
    split
    next => exact hm
    next hcond =>
      apply pushAssoc_linesOk _ _ _ ?_ hm
      apply mkLineText_startsWithTrimmedName
      · simpa using hcond
      · exact trimChars_idem _

theorem foldl_rowStep_linesOk (rows : List (List (List Char)))
    (ci ii di pric : Option Nat) :
    ∀ m, groupsLinesOk m →
      groupsLinesOk (rows.foldl (readTabRowStep ci ii di pric) m) := by
  induction rows with
  | nil => intro m hm; simpa using hm
  | cons row rest ih =>
    intro m hm
    rw [List.foldl_cons]
    exact ih _ (rowStep_linesOk ci ii di pric m row hm)

theorem foldl_rowStep_no_item_col (rows : List (List (List Char)))
    (ci di pric : Option Nat) :
    ∀ m, rows.foldl (readTabRowStep ci none di pric) m = m := by
  induction rows with
  | nil => intro m; rfl
  | cons row rest ih =>
    intro m
    rw [List.foldl_cons]
    have hstep : readTabRowStep ci none di pric m row = m := by
      unfold readTabRowStep
      simp
    rw [hstep]
    exact ih m

theorem pushAssoc_ne_nil {β : Type} [DecidableEq κ] (m : List (κ × List β))
    (k : κ) (v : β) : pushAssoc m k v ≠ [] := by
  cases m with
  | nil => simp [pushAssoc]
  | cons a rest =>
    obtain ⟨k2, vs⟩ := a
    rw [pushAssoc]
    split <;> simp

theorem hydrateRowStep_ne_nil (ci ii : Nat) (di pric : Option Nat)
    (m : List (List Char × List MenuEntry)) (row : List (List Char)) :
    hydrateRowStep ci ii di pric m row ≠ [] := by
  unfold hydrateRowStep
  dsimp only
  exact pushAssoc_ne_nil _ _ _

theorem foldl_hydrateRowStep_ne_nil (rows : List (List (List Char)))
    (ci ii : Nat) (di pric : Option Nat) :
    ∀ m, (m ≠ [] ∨ rows ≠ []) →
      rows.foldl (hydrateRowStep ci ii di pric) m ≠ [] := by
  induction rows with
  | nil =>
    intro m hm
    rcases hm with h | h
    · simpa using h
    · simp at h
  | cons row rest ih =>
    intro m _
    rw [List.foldl_cons]
    exact ih _ (Or.inl (hydrateRowStep_ne_nil ci ii di pric m row))

/-- C9: `parseCsvLine` always returns at least one field; the number of
fields is one plus the number of commas outside double-quoted regions; a
doubled double-quote inside a quoted region contributes exactly one literal
quote character to the current field; and every returned field is
whitespace-trimmed. -/
theorem C9_parseCsvLine_shape (cs : List Char) :
    1 ≤ (parseCsvLine cs).length
  ∧ (parseCsvLine cs).length = 1 + commasOutsideQuotes cs false
  ∧ (∀ rest current values,
      csvGo ('"' :: '"' :: rest) true current values =
        csvGo rest true (current ++ ['"']) values)
  ∧ (∀ f ∈ parseCsvLine cs, trimChars f = f) := by
  have hlen := csvGo_length cs false [] []
  simp only [List.length_nil, Nat.zero_add] at hlen
  refine ⟨?_, ?_, ?_, ?_⟩
  · rw [parseCsvLine]
    omega
  · rw [parseCsvLine]
    omega
  · intro rest current values
    rw [csvGo]
  · exact csvGo_fields_trimmed cs false [] [] (by simp)

theorem C9_parseCsvLine_shape_witness :
    trimChars (("ab").data) = (("ab").data) :=
  (C9_parseCsvLine_shape ((" x ,ab").data)).2.2.2 (("ab").data) (by decide)

/-- C8: every menu line `readTabAsGroups` places in any returned group
begins with a non-empty trimmed item name; a missing tab, a tab with at
most a header row, and a tab with no `item` header all produce the empty
list. -/
theorem C8_readTabAsGroups_lines (ss : Spreadsheet) (tabName : List Char) :
    (∀ g ∈ readTabAsGroups ss tabName, ∀ line ∈ g.items,
        ∃ name rest, line = name ++ rest ∧ name ≠ [] ∧ trimChars name = name)
  ∧ (getSheetByName ss tabName = none → readTabAsGroups ss tabName = [])
  ∧ (∀ data, getSheetByName ss tabName = some data → data.length < 2 →
        readTabAsGroups ss tabName = [])
  ∧ (∀ data, getSheetByName ss tabName = some data →
        idxOfJ ((data.headD []).map headerKey) (("item").data) = none →
        readTabAsGroups ss tabName = []) := by
  refine ⟨?_, ?_, ?_, ?_⟩
  · intro g hg line hl
    cases hss : getSheetByName ss tabName with
    | none =>
      simp only [readTabAsGroups, hss] at hg
      simp at hg
    | some data =>
      simp only [readTabAsGroups, hss] at hg
      by_cases hlen : data.length < 2
      · rw [if_pos hlen] at hg
        simp at hg
      · rw [if_neg hlen] at hg
        simp only [List.mem_map] at hg
        obtain ⟨p, hp, rfl⟩ := hg
        refine foldl_rowStep_linesOk (data.drop 1) _ _ _ _ [] ?_ p hp line hl
        intro e he l h2
        simp at he
  · intro h
    simp only [readTabAsGroups, h]
  · intro data h hlen
    simp only [readTabAsGroups, h, if_pos hlen]
  · intro data h hnone
    simp only [readTabAsGroups, h]
    by_cases hlen : data.length < 2
    · rw [if_pos hlen]
    · rw [if_neg hlen]
      rw [hnone, foldl_rowStep_no_item_col]
      rfl

theorem C8_readTabAsGroups_lines_witness :
    ∃ name rest, ((("Brisket").data : List Char)) = name ++ rest ∧
      name ≠ [] ∧ trimChars name = name :=
  (C8_readTabAsGroups_lines
      ⟨[((("Menu").data),
         [[(("category").data), (("item").data)],
          [(("BBQ").data), (("Brisket").data)]])]⟩
      (("Menu").data)).1
    { category := (("BBQ").data), items := [(("Brisket").data)] } (by decide)
    (("Brisket").data) (by decide)

/-- C10: `hydrateMenuFromGoogleSheet` replaces the children of
`#menu-template` (returns `some cards`) exactly when the element exists, its
`data-menu-sheet` URL matches the published-CSV pattern of
`isPublishedSheetUrl`, the fetch succeeds with `ok`, the CSV header row has
both a `category` and an `item` column, and at least one data row is
present (every data row yields a card entry); in every other case —
including a thrown fetch error — the result is `none` and the pre-existing
fallback children are left unchanged. -/
theorem C10_hydrate_replaces_iff (menuTemplate : Option (List Char))
    (f : FetchOutcome) :
    (hydrateMenuFromGoogleSheet menuTemplate f).isSome = true ↔
      ∃ url body, menuTemplate = some url ∧ isPublishedSheetUrl url = true ∧
        f = .response true body ∧
        2 ≤ (csvRows body).length ∧
        (findHeaderIx ((csvRows body).headD []) (("category").data)).isSome = true ∧
        (findHeaderIx ((csvRows body).headD []) (("item").data)).isSome = true := by
  constructor
  · intro h
    cases menuTemplate with
    | none => simp [hydrateMenuFromGoogleSheet] at h
    | some url =>
      by_cases hurl : isPublishedSheetUrl url = true
      · cases f with
        | failure => simp [hydrateMenuFromGoogleSheet, hurl] at h
        | response ok body =>
          cases ok with
          | false => simp [hydrateMenuFromGoogleSheet, hurl] at h
          | true =>
            refine ⟨url, body, rfl, hurl, rfl, ?_⟩
            simp only [hydrateMenuFromGoogleSheet, hurl, eq_self_iff_true,
              if_true] at h
            cases hr : csvRows body with
            | nil =>
              simp only [hr] at h
              simp at h
            | cons header items =>
              simp only [hr] at h
              cases items with
              | nil => simp at h
              | cons i2 rest2 =>
                cases hcat : findHeaderIx header (("category").data) with
                | none =>
                  simp only [hcat] at h
                  simp at h
                | some ci =>
                  cases hitem : findHeaderIx header (("item").data) with
                  | none =>
                    simp only [hcat, hitem] at h
                    simp at h
                  | some ii =>
                    refine ⟨?_, ?_, ?_⟩
                    · simp only [List.length_cons]
                      omega
                    · simp [hcat]
                    · simp [hitem]
      · simp [hydrateMenuFromGoogleSheet, hurl] at h
  · rintro ⟨url, body, rfl, hurl, rfl, hlen2, hcat, hitem⟩
    simp only [hydrateMenuFromGoogleSheet, hurl, eq_self_iff_true, if_true]
    cases hr : csvRows body with
    | nil =>
      rw [hr] at hlen2
      simp at hlen2
    | cons header items =>
      rw [hr] at hlen2 hcat hitem
      simp only [List.headD_cons] at hcat hitem
      cases items with
      | nil => simp at hlen2
      | cons i2 rest2 =>
        obtain ⟨ci, hci⟩ := Option.isSome_iff_exists.mp hcat
        obtain ⟨ii, hii⟩ := Option.isSome_iff_exists.mp hitem
        simp only [hr, hci, hii, List.isEmpty_cons, Bool.false_eq_true,
          if_false, ite_false]
        have hne := foldl_hydrateRowStep_ne_nil (i2 :: rest2) ci ii
          (findHeaderIx header (("description").data))
          (findHeaderIx header (("price").data)) [] (Or.inr (by simp))
        have htake : ((i2 :: rest2).foldl
            (hydrateRowStep ci ii (findHeaderIx header (("description").data))
              (findHeaderIx header (("price").data))) []).take 8 ≠ [] := by
          intro hc
          rcases List.take_eq_nil_iff.mp hc with h8 | hnil
          · exact absurd h8 (by norm_num)
          · exact hne hnil
        split
        next hc => exact absurd (List.isEmpty_iff.mp hc) htake
        next => rfl

theorem C10_hydrate_replaces_iff_witness :
    ∃ url body,
      some ((("https://docs.google.com/spreadsheets/d/e/k/pub?output=csv").data))
        = some url ∧
      isPublishedSheetUrl url = true ∧
      (FetchOutcome.response true ((("category,item\nBBQ,Brisket").data)))
        = .response true body ∧
      2 ≤ (csvRows body).length ∧
      (findHeaderIx ((csvRows body).headD []) (("category").data)).isSome = true ∧
      (findHeaderIx ((csvRows body).headD []) (("item").data)).isSome = true :=
  (C10_hydrate_replaces_iff
      (some ((("https://docs.google.com/spreadsheets/d/e/k/pub?output=csv").data)))
      (.response true ((("category,item\nBBQ,Brisket").data)))).mp (by decide)

theorem alistGet_set_self {β : Type} [DecidableEq κ] (l : List (κ × β))
    (k : κ) (v : β) : alistGet (alistSet l k v) k = some v := by
  induction l with
  | nil => simp [alistSet, alistGet]
  | cons a rest ih =>
    obtain ⟨k2, w⟩ := a
    by_cases h : k2 = k
    · simp [alistSet, alistGet, h]
    · simp [alistSet, alistGet, h, ih]

theorem alistGet_remove_self {β : Type} [DecidableEq κ] (l : List (κ × β))
    (k : κ) : alistGet (alistRemove l k) k = none := by
  induction l with
  | nil => rfl
  | cons a rest ih =>
    obtain ⟨k2, v⟩ := a
    by_cases h : k2 = k
    · simpa [alistRemove, h] using ih
    · simpa [alistRemove, alistGet, h] using ih

/-- C6: `SessionStore.get` reports a session absent when it has exceeded its
idle timeout (time since last activity) or its absolute timeout (time since
creation), and deletes the stored record as a side effect. -/
theorem C6_get_expired_absent_and_deleted (cfg : Config) (st : GatewayState)
    (now sid : Nat) (s : Session)
    (hs : alistGet st.sessions sid = some s)
    (hexp : s.lastActivity + cfg.idleTimeout < now ∨
      s.createdAt + cfg.absoluteTimeout < now) :
    (SessionStore.get cfg st now sid).1 = none ∧
      alistGet (SessionStore.get cfg st now sid).2.sessions sid = none := by
  have hx : sessionExpired cfg now s = true := by
    rcases hexp with h | h <;> simp [sessionExpired, h]
  constructor
  · simp [SessionStore.get, hs, hx]
  · simp [SessionStore.get, hs, hx, alistGet_remove_self]

/-- C2: a request to any protected path (a path that is not public) with an
absent session cookie is answered by a redirect to `/login` with the state
untouched, a malformed cookie is treated identically to an absent one, and
in neither case is the resource forwarded. -/
theorem C2_protected_no_cookie_redirects (cfg : Config) (st : GatewayState)
    (now : Nat) (path : String) (_hprot : isPublicPath path = false) :
    handleProtected cfg st now .absent path = (.redirect ("/login"), st)
  ∧ handleProtected cfg st now .malformed path =
      handleProtected cfg st now .absent path
  ∧ (∀ p, (handleProtected cfg st now .absent path).1 ≠ .resource p)
  ∧ (∀ p, (handleProtected cfg st now .malformed path).1 ≠ .resource p) := by
  refine ⟨rfl, rfl, ?_, ?_⟩ <;>
    · intro p
      simp [handleProtected, readSessionId]

/-- C3: a login POST whose CSRF token is missing or does not validate is
rejected — whatever the submitted identity and password are — and neither
the brute-force records nor the sessions change; a missing token never
validates. -/
theorem C3_csrf_invalid_rejected_nothing_recorded (cfg : Config)
    (st : GatewayState) (now : Nat) (identifier identity password : String)
    (csrfSecret csrfToken : Option String)
    (h : validateToken csrfSecret csrfToken = false) :
    (∃ msg, postLogin cfg st now identifier identity password csrfSecret csrfToken
        = (.reject msg, st))
  ∧ (postLogin cfg st now identifier identity password csrfSecret csrfToken).2.attempts
      = st.attempts
  ∧ (postLogin cfg st now identifier identity password csrfSecret csrfToken).2.sessions
      = st.sessions
  ∧ (∀ sec, validateToken sec none = false) := by
  have hmain : ∃ msg,
      postLogin cfg st now identifier identity password csrfSecret csrfToken
        = (.reject msg, st) := by
    by_cases hl : isLocked st.attempts now identifier = true
    · exact ⟨lockedOutMessage, by simp [postLogin, hl]⟩
    · refine ⟨csrfRejectMessage, ?_⟩
      simp only [Bool.not_eq_true] at hl
      simp [postLogin, hl, h]
  obtain ⟨msg, hm⟩ := hmain
  refine ⟨⟨msg, hm⟩, by rw [hm], by rw [hm], ?_⟩
  intro sec
  cases sec <;> rfl

/-- C4: the rejection message for a failed login is byte-identical whether
the identity was the configured one with a wrong password or an unknown
identity — both produce the one generic invalid-credentials message, so the
body reveals nothing about identity existence. -/
theorem C4_rejection_message_identical (cfg : Config) (st st2 : GatewayState)
    (now now2 : Nat) (idf idf2 password password2 otherIdentity : String)
    (csrfSecret csrfToken csrfSecret2 csrfToken2 : Option String)
    (h1 : isLocked st.attempts now idf = false)
    (h2 : validateToken csrfSecret csrfToken = true)
    (h3 : argon2Verify cfg.adminPasswordHash password = false)
    (h4 : otherIdentity ≠ cfg.adminUsername)
    (h5 : isLocked st2.attempts now2 idf2 = false)
    (h6 : validateToken csrfSecret2 csrfToken2 = true) :
    (postLogin cfg st now idf cfg.adminUsername password csrfSecret csrfToken).1
      = .reject invalidCredentialsMessage
  ∧ (postLogin cfg st2 now2 idf2 otherIdentity password2 csrfSecret2 csrfToken2).1
      = .reject invalidCredentialsMessage
  ∧ (postLogin cfg st now idf cfg.adminUsername password csrfSecret csrfToken).1
      = (postLogin cfg st2 now2 idf2 otherIdentity password2 csrfSecret2 csrfToken2).1 := by
  have ha : (postLogin cfg st now idf cfg.adminUsername password csrfSecret csrfToken).1
      = .reject invalidCredentialsMessage := by
    simp [postLogin, h1, h2, verify, h3]
  have hb : (postLogin cfg st2 now2 idf2 otherIdentity password2 csrfSecret2 csrfToken2).1
      = .reject invalidCredentialsMessage := by
    have hv : verify cfg otherIdentity password2 = false := by
      simp [verify, h4]
    simp [postLogin, h5, h6, hv]
  exact ⟨ha, hb, by rw [ha, hb]⟩

/-- C1: once the failure count recorded for an identifier reaches the
configured threshold within the active window, a lockout timestamp is
stored; while the current time is before that timestamp every login attempt
for the identifier is rejected with the rate-limited response without
touching the state, even with the correct password; once the timestamp has
passed the identifier is no longer locked and a correct, CSRF-valid attempt
succeeds with a redirect. -/
theorem C1_lockout_threshold_enforced (cfg : Config) (st : GatewayState)
    (now : Nat) (identifier : String) :
    (∀ identity password csrfSecret csrfToken,
        isLocked st.attempts now identifier = true →
        postLogin cfg st now identifier identity password csrfSecret csrfToken
          = (.reject lockedOutMessage, st))
  ∧ (∀ r t, alistGet st.attempts identifier = some r →
        r.lockedUntil = some t →
        (isLocked st.attempts now identifier = true ↔ now < t))
  ∧ (∀ r, alistGet st.attempts identifier = some r →
        now < r.windowStart + cfg.lockoutWindow →
        cfg.lockoutThreshold ≤ r.failureCount + 1 →
        alistGet (recordFailure cfg st.attempts now identifier) identifier =
          some { failureCount := r.failureCount + 1,
                 windowStart := r.windowStart,
                 lockedUntil := some (now + cfg.lockoutDuration) })
  ∧ (∀ identity password csrfSecret csrfToken,
        isLocked st.attempts now identifier = false →
        validateToken csrfSecret csrfToken = true →
        verify cfg identity password = true →
        (postLogin cfg st now identifier identity password
            csrfSecret csrfToken).1 = .redirect ("/")) := by
  refine ⟨?_, ?_, ?_, ?_⟩
  · intro identity password csrfSecret csrfToken hl
    simp [postLogin, hl]
  · intro r t hr ht
    simp [isLocked, hr, ht]
  · intro r hr hw hth
    simp [recordFailure, hr, hw, hth, alistGet_set_self]
  · intro identity password csrfSecret csrfToken hl hc hv
    simp [postLogin, hl, hc, hv, SessionStore.create]

/-- C5: startup fails fast — `startServer` returns an error and no listener
is bound — whenever the administrative identity name, the password hash or
the session-signing secret is missing from the environment, or the hash
string is malformed; and a process that does start carries exactly the
environment-supplied values (never a partially configured or
source-hardcoded identity). -/
theorem C5_startup_fail_fast (env : List (String × String)) :
    (lookupEnv env ("ADMIN_USERNAME") = none →
        ∃ e, startServer env = .error e)
  ∧ (lookupEnv env ("ADMIN_PASSWORD_HASH") = none →
        ∃ e, startServer env = .error e)
  ∧ (lookupEnv env ("SESSION_SECRET") = none →
        ∃ e, startServer env = .error e)
  ∧ (∀ h, lookupEnv env ("ADMIN_PASSWORD_HASH") = some h →
        wellFormedHash h = false → ∃ e, startServer env = .error e)
  ∧ (∀ srv, startServer env = .ok srv →
        lookupEnv env ("ADMIN_USERNAME") = some srv.config.adminUsername ∧
        lookupEnv env ("ADMIN_PASSWORD_HASH") = some srv.config.adminPasswordHash ∧
        wellFormedHash srv.config.adminPasswordHash = true ∧
        lookupEnv env ("SESSION_SECRET") = some srv.config.sessionSecret ∧
        srv.listening = true) := by
  refine ⟨?_, ?_, ?_, ?_, ?_⟩
  · intro h
    exact ⟨.missingAdminUsername, by simp [startServer, loadConfig, h]⟩
  · intro h
    cases h1 : lookupEnv env ("ADMIN_USERNAME") with
    | none => exact ⟨.missingAdminUsername, by simp [startServer, loadConfig, h1]⟩
    | some u => exact ⟨.missingPasswordHash, by simp [startServer, loadConfig, h1, h]⟩
  · intro h
    cases h1 : lookupEnv env ("ADMIN_USERNAME") with
    | none => exact ⟨.missingAdminUsername, by simp [startServer, loadConfig, h1]⟩
    | some u =>
      cases h2 : lookupEnv env ("ADMIN_PASSWORD_HASH") with
      | none => exact ⟨.missingPasswordHash, by simp [startServer, loadConfig, h1, h2]⟩
      | some hh => exact ⟨.missingSessionSecret, by simp [startServer, loadConfig, h1, h2, h]⟩
  · intro hsh h hbad
    cases h1 : lookupEnv env ("ADMIN_USERNAME") with
    | none => exact ⟨.missingAdminUsername, by simp [startServer, loadConfig, h1]⟩
    | some u =>
      cases h3 : lookupEnv env ("SESSION_SECRET") with
      | none => exact ⟨.missingSessionSecret, by simp [startServer, loadConfig, h1, h, h3]⟩
      | some sec =>
        exact ⟨.malformedPasswordHash, by simp [startServer, loadConfig, h1, h, h3, hbad]⟩
  · intro srv hok
    cases h1 : lookupEnv env ("ADMIN_USERNAME") with
    | none => simp [startServer, loadConfig, h1] at hok
    | some u =>
      cases h2 : lookupEnv env ("ADMIN_PASSWORD_HASH") with
      | none => simp [startServer, loadConfig, h1, h2] at hok
      | some hh =>
        cases h3 : lookupEnv env ("SESSION_SECRET") with
        | none => simp [startServer, loadConfig, h1, h2, h3] at hok
        | some sec =>
          cases hwf : wellFormedHash hh with
          | false => simp [startServer, loadConfig, h1, h2, h3, hwf] at hok
          | true =>
            simp only [startServer, loadConfig, h1, h2, h3, hwf, if_true] at hok
            cases hok2 : hok
            simp_all

/-- C7: after a logout destroys a live session, the session id no longer
authorizes any protected-path request (it redirects to `/login`), and a
second logout with the same stale cookie produces exactly the response and
state of the first — logout is idempotent on an already-destroyed
session. -/
theorem C7_logout_idempotent (cfg : Config) (st : GatewayState)
    (now now2 now3 sid : Nat) (s : Session) (tok : Option String)
    (hs : alistGet st.sessions sid = some s)
    (hexp : sessionExpired cfg now s = false)
    (htok : validateToken (some s.csrfSecret) tok = true) :
    postLogout cfg st now (.value sid) tok
      = (.redirect ("/login"), SessionStore.destroy st sid)
  ∧ alistGet (SessionStore.destroy st sid).sessions sid = none
  ∧ (∀ path, isPublicPath path = false →
      (handleProtected cfg (SessionStore.destroy st sid) now2
          (.value sid) path).1 = .redirect ("/login"))
  ∧ postLogout cfg (SessionStore.destroy st sid) now3 (.value sid) tok
      = (.redirect ("/login"), SessionStore.destroy st sid) := by
  refine ⟨?_, ?_, ?_, ?_⟩
  · simp [postLogout, readSessionId, SessionStore.get, hs, hexp, htok]
  · simp [SessionStore.destroy, alistGet_remove_self]
  · intro path _hp
    simp [handleProtected, readSessionId, SessionStore.get,
      SessionStore.destroy, alistGet_remove_self]
  · simp [postLogout, readSessionId, SessionStore.get,
      SessionStore.destroy, alistGet_remove_self]

theorem C1_lockout_threshold_enforced_witness :
    postLogin demoConfig demoLockedState 100 ("10.0.0.1") ("admin")
        ("Troglives1!") (some ("cs")) (some (issueToken ("cs")))
      = (.reject lockedOutMessage, demoLockedState)
  ∧ (postLogin demoConfig demoFreeState 1000 ("10.0.0.1") ("admin")
        ("Troglives1!") (some ("cs")) (some (issueToken ("cs")))).1
      = .redirect ("/") :=
  ⟨(C1_lockout_threshold_enforced demoConfig demoLockedState 100 ("10.0.0.1")).1
      ("admin") ("Troglives1!") (some ("cs")) (some (issueToken ("cs")))
      (by decide),
   (C1_lockout_threshold_enforced demoConfig demoFreeState 1000 ("10.0.0.1")).2.2.2
      ("admin") ("Troglives1!") (some ("cs")) (some (issueToken ("cs")))
      (by decide) (by decide) (by decide)⟩

theorem C2_protected_no_cookie_redirects_witness :
    handleProtected demoConfig demoFreeState 5 .absent ("/menu.html")
      = (.redirect ("/login"), demoFreeState) :=
  (C2_protected_no_cookie_redirects demoConfig demoFreeState 5 ("/menu.html")
      (by decide)).1

theorem C3_csrf_invalid_rejected_witness :
    ∃ msg, postLogin demoConfig demoFreeState 5 ("10.0.0.1") ("admin")
        ("Troglives1!") none none = (.reject msg, demoFreeState) :=
  (C3_csrf_invalid_rejected_nothing_recorded demoConfig demoFreeState 5
      ("10.0.0.1") ("admin") ("Troglives1!") none none (by decide)).1

theorem C4_rejection_message_identical_witness :
    (postLogin demoConfig demoFreeState 5 ("a") demoConfig.adminUsername
        ("wrongpw") (some ("cs")) (some (issueToken ("cs")))).1
      = .reject invalidCredentialsMessage
  ∧ (postLogin demoConfig demoFreeState 6 ("b") ("root") ("hunter2")
        (some ("cs")) (some (issueToken ("cs")))).1
      = .reject invalidCredentialsMessage :=
  let h := C4_rejection_message_identical demoConfig demoFreeState demoFreeState
    5 6 ("a") ("b") ("wrongpw") ("hunter2") ("root")
    (some ("cs")) (some (issueToken ("cs")))
    (some ("cs")) (some (issueToken ("cs")))
    (by decide) (by decide) (by decide) (by decide) (by decide) (by decide)
  ⟨h.1, h.2.1⟩

theorem C5_startup_fail_fast_witness :
    ∃ e, startServer [] = .error e :=
  (C5_startup_fail_fast []).1 rfl

theorem C6_get_expired_witness :
    (SessionStore.get demoConfig demoSessionState 999999 1).1 = none ∧
      alistGet (SessionStore.get demoConfig demoSessionState 999999 1).2.sessions 1
        = none :=
  C6_get_expired_absent_and_deleted demoConfig demoSessionState 999999 1
    demoSession (by decide) (Or.inl (by decide))

theorem C7_logout_idempotent_witness :
    postLogout demoConfig demoSessionState 5 (.value 1)
        (some (issueToken demoSession.csrfSecret))
      = (.redirect ("/login"), SessionStore.destroy demoSessionState 1)
  ∧ postLogout demoConfig (SessionStore.destroy demoSessionState 1) 7 (.value 1)
        (some (issueToken demoSession.csrfSecret))
      = (.redirect ("/login"), SessionStore.destroy demoSessionState 1) :=
  let h := C7_logout_idempotent demoConfig demoSessionState 5 6 7 1 demoSession
    (some (issueToken demoSession.csrfSecret))
    (by decide) (by decide) (by decide)
  ⟨h.1, h.2.2.2⟩

end Phbq
